import Mathlib

/-
Shallow embedding of the QFinUWA Range-Trading-Team1 strategy scripts
(`range_trading_combined.py`, `bollinger_bands.py`, `range_trading.py`).

Modelling conventions:
* Python floats are embedded as rationals (`ℚ`); every arithmetic expression of
  the scripts is exact rational arithmetic here.
* The lookback dataframe is embedded as a `Frame`: its row count `len` together
  with total functions for each column the decision logic reads (`close`,
  `high`, `low`, `ATR`, and for the Bollinger script the per-window columns
  `BOLD{i}`, `BOLU{i}`, `MA-TP{i}`, `std{i}` indexed by the window slot `i`).
  Every column access performed by the scripts on a reachable path is within
  range (the scripts guard on the length first), so total functions are a
  faithful model of positional dataframe indexing.
* Fallible Python evaluation (raised exceptions) is embedded with
  `Except String`: a raised exception aborts the step, but the side effects
  already issued and the global-variable assignments already executed persist,
  exactly as in Python.
* The account object lives outside the three source files (it comes from the
  unseen `backtester` package).  Modelled from the spec: the account exposes
  `buying_power` and `positions`; `enter_position`/`close_position` adjust them
  "as a side effect the core does not directly observe until the *next* step's
  Account snapshot", so within one logic step every read of `buying_power` and
  `positions` returns the step-start snapshot, and the two mutating calls are
  recorded as emitted instructions (`Action`s) in program order.
* The loop `for position in account.positions: account.close_position(position,
  1, price)` liquidates every open position, fully, at one price; it is
  recorded as a single `Action.closeAll positions price` instruction (recording
  which positions it closes), and as no instruction when `positions` is empty
  (the loop body never runs then).
-/

namespace RangeTrading

/-- Position side, `'long'` or `'short'` in the scripts. -/
inductive Side : Type
  | long : Side
  | short : Side
deriving DecidableEq

/-- An open position as the spec's data model describes it:
side, notional size, entry price. -/
structure Position : Type where
  side : Side
  notional : ℚ
  entry : ℚ
deriving DecidableEq

/-- Modelled from the spec: the account snapshot the logic step reads —
`buying_power` and the ordered collection of open positions.  Mutations are
not observed within the same step. -/
structure Account : Type where
  buying_power : ℚ
  positions : List Position
deriving DecidableEq

/-- An instruction issued to the external account collaborator:
either a single `enter_position(side, notional, price)` call, or the
liquidate-everything loop (each open position closed with fraction 1 at the
given price). -/
inductive Action : Type
  | enter (side : Side) (notional : ℚ) (price : ℚ)
  | closeAll (closed : List Position) (price : ℚ)
deriving DecidableEq

/-- Is this action an `enter_position` instruction? -/
def isEnter : Action → Bool
  | Action.enter _ _ _ => true
  | Action.closeAll _ _ => false

/-- The lookback dataframe: number of rows plus the columns the scripts read.
`BOLD`, `BOLU`, `MATP` (column `MA-TP{i}`) and `std` take the window slot `i`
first and the row index second. -/
structure Frame : Type where
  len : ℕ
  close : ℕ → ℚ
  high : ℕ → ℚ
  low : ℕ → ℚ
  ATR : ℕ → ℚ
  BOLD : ℕ → ℕ → ℚ
  BOLU : ℕ → ℕ → ℚ
  MATP : ℕ → ℕ → ℚ
  std : ℕ → ℕ → ℚ

/-- Python division: raises `ZeroDivisionError` on a zero denominator,
otherwise returns the exact quotient. -/
def qdiv (a b : ℚ) : Except String ℚ :=
  if b = 0 then Except.error "ZeroDivisionError: float division by zero"
  else Except.ok (a / b)

/-- Run a fallible computation on each list element in order, stopping at the
first raised exception (the embedding of a Python `for` loop whose body may
raise). -/
def mapE {α β : Type} (g : α → Except String β) : List α → Except String (List β)
  | [] => Except.ok []
  | a :: as => do
    let b ← g a
    let bs ← mapE g as
    Except.ok (b :: bs)

/-- Python's interpretation of the start of a slice `[start:]` over `len`
rows: a negative start counts from the end, clamped at 0. -/
def pyIndex (len : ℕ) (start : Int) : ℕ :=
  if start < 0 then ((len : Int) + start).toNat else start.toNat

/-- The slice `lookback['close'][start:]`, with Python's semantics for a
negative start index. -/
def closeSlice (f : Frame) (start : Int) : List ℚ :=
  (List.range (f.len - pyIndex f.len start)).map fun k =>
    f.close (pyIndex f.len start + k)

/-- Python `min` over a nonempty list (the value returned for `min(S)`;
the `[]` case stands for the `ValueError` path, which the error handling of
`identify_range` reports separately). -/
def listMin : List ℚ → ℚ
  | [] => 0
  | a :: as => as.foldl min a

/-- Python `max` over a nonempty list, analogous to `listMin`. -/
def listMax : List ℚ → ℚ
  | [] => 0
  | a :: as => as.foldl max a

namespace Combined

/-- `training_period = 20` — how far the rolling average and ADX look back. -/
def training_period : ℕ := 20

/-- `standard_deviations = 3.5`.  This module-level binding is a *number*, yet
`identify_range` applies it like a function (`standard_deviations(...)`), so
every call of `identify_range` raises `TypeError` in Python. -/
def standard_deviations : ℚ := 3.5

/-- `bound_buffer = 1` — SDs above/below the min/max the range bounds sit. -/
def bound_buffer : ℚ := 1

/-- `enter_position_std = 0.05` — SDs inside the bounds for buy/sell signals. -/
def enter_position_std : ℚ := 0.05

/-- `stop_loss = 1` — SDs outside the range treated as a breakout. -/
def stop_loss : ℚ := 1

/-- `adx_ranging_threshold = 25` — ADX below this means ranging. -/
def adx_ranging_threshold : ℚ := 25

/-- `mean(data) = sum(data)/len(data)` (never called on an empty list by the
scripts; `ℚ` division by the zero length would yield 0 here where Python would
raise, but no reachable call site has an empty list). -/
def mean (l : List ℚ) : ℚ := l.sum / (l.length : ℚ)

/-- `identify_range(lookback, start)`.  The source text computes
`lower = min(lookback['close'][start:]) - bound_buffer*standard_deviations(lookback['close'][start:])`
and five more values of the same shape.  Since `standard_deviations` is the
rational constant `3.5` and not a function, Python evaluates `min(slice)`
(raising `ValueError` when the slice is empty) and then raises `TypeError`
when it tries to call `3.5` on the slice.  The function therefore never
returns the six-tuple its docstring promises; the embedding returns the
exception that Python raises. -/
def identify_range (f : Frame) (start : Int) :
    Except String (ℚ × ℚ × ℚ × ℚ × ℚ × ℚ) :=
  if closeSlice f start = [] then
    Except.error "ValueError: min arg is an empty sequence"
  else
    Except.error "TypeError: float object is not callable"

/-- `exit_positions(account, lookback, today)` — liquidates every open
position, fully, at `lookback['close'][today]`.  Emits the close-all
instruction exactly when there is at least one open position in the snapshot
(otherwise the loop body never runs and nothing reaches the account). -/
def exit_positions (acct : Account) (f : Frame) (today : ℕ) : List Action :=
  if acct.positions = [] then [] else [Action.closeAll acct.positions (f.close today)]

/-- The smoothed +DM of `adx` at loop index `i`:
`mean([high[today-i-x] - high[today-i-1-x] for x in range(training_period)])`. -/
def smoothedPlusDM (f : Frame) (today i : ℕ) : ℚ :=
  mean ((List.range training_period).map fun x =>
    f.high (today - i - x) - f.high (today - i - 1 - x))

/-- The smoothed −DM of `adx` at loop index `i`:
`mean([low[today-i-1-x] - low[today-i-x] for x in range(training_period)])`. -/
def smoothedMinusDM (f : Frame) (today i : ℕ) : ℚ :=
  mean ((List.range training_period).map fun x =>
    f.low (today - i - 1 - x) - f.low (today - i - x))

/-- One iteration of the DX loop in `adx`:
`ATR = lookback['ATR'][today-i]`, `plusDI = (smoothed_plusDM/ATR)*100`,
`minusDI = (smoothed_minusDM/ATR)*100`,
`DX = (abs(plusDI-minusDI)/abs(plusDI+minusDI))*100`.
Both divisions are unguarded in the source and raise `ZeroDivisionError` on a
zero denominator. -/
def dxStep (f : Frame) (today i : ℕ) : Except String ℚ := do
  let pDI0 ← qdiv (smoothedPlusDM f today i) (f.ATR (today - i))
  let mDI0 ← qdiv (smoothedMinusDM f today i) (f.ATR (today - i))
  let q ← qdiv |pDI0 * 100 - mDI0 * 100| |pDI0 * 100 + mDI0 * 100|
  Except.ok (q * 100)

/-- `adx(lookback)`: returns the sentinel 100 when fewer than
`2*training_period + 1` rows exist, otherwise averages the DX values of the
last `training_period` loop steps. -/
def adx (f : Frame) : Except String ℚ :=
  if f.len < 2 * training_period + 1 then Except.ok 100
  else do
    let today := f.len - 1
    let dx_array ← mapE (fun i => dxStep f today i) (List.range training_period)
    Except.ok (dx_array.sum / (training_period : ℚ))

/-- The outcome of one `logic` step of the combined strategy: the value of the
global `range_start` after the step, the account instructions issued during
the step (in order), and whether the step returned normally or raised. -/
structure StepResult : Type where
  range_start : Int
  actions : List Action
  outcome : Except String Unit

/-- The `if ranging:` block of the combined `logic`, entered with the current
value of `range_start` (already updated by the transition code).  It calls
`identify_range` — which always raises — so in the source as written this
block always aborts the step; the trading branches below the call are embedded
nonetheless, mirroring the source text. -/
def rangingBody (rs : Int) (acct : Account) (f : Frame) : StepResult :=
  let today := f.len - 1
  match identify_range f rs with
  | Except.error e => { range_start := rs, actions := [], outcome := Except.error e }
  | Except.ok (_lower, _upper, buy_signal, sell_signal, stop_loss_lower, stop_loss_upper) =>
    let price := f.close today
    if price ≤ stop_loss_lower ∨ price ≥ stop_loss_upper then
      { range_start := rs, actions := exit_positions acct f today,
        outcome := Except.ok () }
    else if price ≤ buy_signal then
      { range_start := rs,
        actions := exit_positions acct f today ++
          [Action.enter Side.long acct.buying_power price],
        outcome := Except.ok () }
    else if price ≥ sell_signal then
      { range_start := rs,
        actions := exit_positions acct f today ++
          [Action.enter Side.short acct.buying_power price],
        outcome := Except.ok () }
    else
      { range_start := rs, actions := [], outcome := Except.ok () }

/-- One step of `logic(account, lookback)` of `range_trading_combined.py`,
given the current value of the global `range_start`.

Control flow of the source, in order:
1. `today = len(lookback)-1`; return immediately when
   `today + 1 < 2*training_period + 1`.
2. `ranging = adx(lookback) < adx_ranging_threshold` — an exception from
   `adx` propagates (step aborts, nothing else happens).
3. `if range_start == -1 and ranging: range_start = today` and the
   `if ranging:` block then runs with the new `range_start`.
4. `elif range_start != -1 and not ranging:` calls `exit_positions(account)` —
   a call with 1 argument to a 3-parameter function, so Python raises
   `TypeError` *before* any position is closed and *before* the
   `range_start = -1` reset on the next line executes.
5. otherwise the trailing `if ranging: ... else: range_start = -1` runs. -/
def logic (range_start : Int) (acct : Account) (f : Frame) : StepResult :=
  let today := f.len - 1
  if today + 1 < 2 * training_period + 1 then
    { range_start := range_start, actions := [], outcome := Except.ok () }
  else
    match adx f with
    | Except.error e =>
      { range_start := range_start, actions := [], outcome := Except.error e }
    | Except.ok a =>
      if range_start = -1 ∧ a < adx_ranging_threshold then
        rangingBody ((f.len : Int) - 1) acct f
      else if range_start ≠ -1 ∧ ¬ a < adx_ranging_threshold then
        { range_start := range_start, actions := [],
          outcome :=
            Except.error "TypeError: exit_positions missing 2 required positional arguments" }
      else if a < adx_ranging_threshold then
        rangingBody range_start acct f
      else
        { range_start := -1, actions := [], outcome := Except.ok () }

end Combined

/-- Modelled from the spec: the sample standard deviation squared (sample
variance) of a slice.  The source's `identify_range` *intends* to call a
sample-standard-deviation function `standard_deviations(...)`, but in the
source that name is bound to the constant `3.5`, so no such function exists in
the scripts; the spec defines `σ` as "sample standard deviation of `S`".
Stated via the variance so that everything stays inside `ℚ`: `σ` is the unique
nonnegative root of `sampleVar S`. -/
def sampleVar (l : List ℚ) : ℚ :=
  (l.map fun x => (x - Combined.mean l) ^ 2).sum / ((l.length : ℚ) - 1)

namespace Boll

/-- `bt = [10, 20, 50]` — the Bollinger window lengths. -/
def bt : List ℕ := [10, 20, 50]

/-- `stdv = [1.5, 2, 2.5]` — band widths in SDs, parallel to `bt`. -/
def stdv : List ℚ := [1.5, 2, 2.5]

/-- `standard_deviations = 3.5`. -/
def standard_deviations : ℚ := 3.5

/-- `buyvariablescale = 1`. -/
def buyvariablescale : ℚ := 1

/-- `stop_standard_deviation = 0.5`. -/
def stop_standard_deviation : ℚ := 0.5

/-- `training_period = 20` (unused by this script's `logic`). -/
def training_period : ℕ := 20

/-- `buyvariable = buyvariablescale*standard_deviations`, recomputed each loop
iteration in the source; a constant. -/
def buyvariable : ℚ := buyvariablescale * standard_deviations

/-- The loop `for i in [0,1,2]` of the Bollinger `logic`. -/
def windows : List ℕ := [0, 1, 2]

/-- One iteration of the Bollinger `logic` loop body for window slot `i`.
The source first evaluates
`buylongamount  = buying_power*(1 - buyvariable/((BOLD_i - close) + buyvariable))` and
`buyshortamount = buying_power*(1 - buyvariable/((close - BOLU_i) + buyvariable))`
(each raising `ZeroDivisionError` when its denominator is zero — these sizing
values are computed and then never used), and only then, when
`today > bt[i]`, issues an entry: long with the *full* `buying_power` when
`close < BOLD_i` and `buying_power > 0`, and short likewise when
`close > BOLU_i`.  Returns the instructions issued by this iteration. -/
def bollIter (acct : Account) (f : Frame) (i : ℕ) : Except String (List Action) := do
  let today := f.len - 1
  let dl ← qdiv buyvariable ((f.BOLD i today - f.close today) + buyvariable)
  let _buylongamount := acct.buying_power * (1 - dl)
  let ds ← qdiv buyvariable ((f.close today - f.BOLU i today) + buyvariable)
  let _buyshortamount := acct.buying_power * (1 - ds)
  if today > bt.getD i 0 then
    Except.ok
      ((if f.close today < f.BOLD i today ∧ 0 < acct.buying_power then
          [Action.enter Side.long acct.buying_power (f.close today)]
        else []) ++
       (if f.close today > f.BOLU i today ∧ 0 < acct.buying_power then
          [Action.enter Side.short acct.buying_power (f.close today)]
        else []))
  else
    Except.ok []

/-- The whole `for i in [0,1,2]` loop: concatenates the instructions of the
iterations in order; an exception aborts the loop but keeps the instructions
already issued by earlier iterations. -/
def bollLoop (acct : Account) (f : Frame) : List ℕ → List Action × Except String Unit
  | [] => ([], Except.ok ())
  | i :: rest =>
    match bollIter acct f i with
    | Except.error e => ([], Except.error e)
    | Except.ok acts =>
      let r := bollLoop acct f rest
      (acts ++ r.1, r.2)

/-- One step of `logic(account, lookback)` of `bollinger_bands.py`: the window
loop, then — unconditionally, after the loop — the mean-reversion exit: when
`close` lies strictly within `stop_standard_deviation` times `std0` of
`MA-TP0`, close all open positions at `close`. -/
def logic (acct : Account) (f : Frame) : List Action × Except String Unit :=
  let today := f.len - 1
  let r := bollLoop acct f windows
  match r.2 with
  | Except.error e => (r.1, Except.error e)
  | Except.ok _ =>
    let price := f.close today
    if price < f.MATP 0 today + f.std 0 today * stop_standard_deviation ∧
       price > f.MATP 0 today - f.std 0 today * stop_standard_deviation then
      (r.1 ++ (if acct.positions = [] then []
               else [Action.closeAll acct.positions price]),
       Except.ok ())
    else
      (r.1, Except.ok ())

end Boll

/-! Concrete inputs used to evaluate the embedded code. -/

/-- A two-bar history with closes 1 and 2 (a minimal slice with 2 points). -/
def frameA : Frame where
  len := 2
  close := fun t => if t = 0 then 1 else 2
  high := fun _ => 0
  low := fun _ => 0
  ATR := fun _ => 1
  BOLD := fun _ _ => 0
  BOLU := fun _ _ => 0
  MATP := fun _ _ => 0
  std := fun _ _ => 0

/-- A 41-bar strongly trending history: `high` and `low` jump once (after bar
20), `ATR` is 1 everywhere.  Every DX-loop step sees smoothed +DM = 5/2 and
smoothed −DM = −2, so +DI = 250, −DI = −200, DX = |450|/|50|·100 = 900, and
`adx` completes with the value 900. -/
def trendFrame : Frame where
  len := 41
  close := fun _ => 100
  high := fun t => if t ≤ 20 then 0 else 50
  low := fun t => if t ≤ 20 then 0 else 40
  ATR := fun _ => 1
  BOLD := fun _ _ => 0
  BOLU := fun _ _ => 0
  MATP := fun _ _ => 0
  std := fun _ _ => 0

/-- A 41-bar perfectly flat history (`high` and `low` constant, `ATR` 1):
both smoothed DMs are 0, so the DX denominator `|+DI + −DI|` is 0 at the very
first loop step. -/
def flatFrame : Frame where
  len := 41
  close := fun _ => 100
  high := fun _ => 7
  low := fun _ => 3
  ATR := fun _ => 1
  BOLD := fun _ _ => 0
  BOLU := fun _ _ => 0
  MATP := fun _ _ => 0
  std := fun _ _ => 0

/-- A 5-bar history: far fewer than the `2*training_period + 1 = 41` bars the
ADX needs. -/
def smallFrame : Frame where
  len := 5
  close := fun _ => 10
  high := fun _ => 11
  low := fun _ => 9
  ATR := fun _ => 1
  BOLD := fun _ _ => 0
  BOLU := fun _ _ => 0
  MATP := fun _ _ => 0
  std := fun _ _ => 0

/-- A 52-bar history for the Bollinger script (`today = 51`, so all three
windows pass `today > bt[i]`).  `close = 100` sits below the lower band of
windows 1 and 2 (`BOLD1 = 106`, `BOLD2 = 107`), inside the window-0 bands,
and strictly within `0.5·std0 = 0.5` of `MA-TP0 = 100`, so the step issues
two long entries and then the close-all exit.  All sizing denominators are
nonzero. -/
def bollCex : Frame where
  len := 52
  close := fun _ => 100
  high := fun _ => 0
  low := fun _ => 0
  ATR := fun _ => 1
  BOLD := fun i _ => if i = 0 then 98.5 else if i = 1 then 106 else 107
  BOLU := fun i _ => if i = 0 then 101.5 else if i = 1 then 114 else 117
  MATP := fun i _ => if i = 0 then 100 else if i = 1 then 110 else 112
  std := fun i _ => if i = 0 then 1 else 2

/-- A 52-bar history for the Bollinger script whose window-0 sizing
denominator is exactly zero: `(BOLD0 - close) + buyvariable = (96.5 - 100) +
3.5 = 0`. -/
def bollDiv : Frame where
  len := 52
  close := fun _ => 100
  high := fun _ => 0
  low := fun _ => 0
  ATR := fun _ => 1
  BOLD := fun i _ => if i = 0 then 96.5 else 0
  BOLU := fun _ _ => 0
  MATP := fun _ _ => 0
  std := fun _ _ => 0

/-- The close column shared by `frameC9` and `frameC9e`: 0, 1, 2, then 1s. -/
def c9close : ℕ → ℚ :=
  fun t => if t = 0 then 0 else if t = 1 then 1 else if t = 2 then 2 else 1

/-- A three-bar history with closes `[0, 1, 2]` (sample variance 1). -/
def frameC9 : Frame where
  len := 3
  close := c9close
  high := fun _ => 0
  low := fun _ => 0
  ATR := fun _ => 1
  BOLD := fun _ _ => 0
  BOLU := fun _ _ => 0
  MATP := fun _ _ => 0
  std := fun _ _ => 0

/-- `frameC9` extended by six further bars that all close at 1: closes
`[0, 1, 2, 1, 1, 1, 1, 1, 1]` (sample variance 1/4). -/
def frameC9e : Frame where
  len := 9
  close := c9close
  high := fun _ => 0
  low := fun _ => 0
  ATR := fun _ => 1
  BOLD := fun _ _ => 0
  BOLU := fun _ _ => 0
  MATP := fun _ _ => 0
  std := fun _ _ => 0

/-- An account with buying power 1000 and no open position. -/
def acctFlat : Account := { buying_power := 1000, positions := [] }

/-- An account with buying power 1000 and one open long position. -/
def acctPos : Account :=
  { buying_power := 1000,
    positions := [{ side := Side.long, notional := 10, entry := 99 }] }

/-- An account with buying power 1000 and one open long position (entry 90),
used with the Bollinger script. -/
def acct1 : Account :=
  { buying_power := 1000,
    positions := [{ side := Side.long, notional := 5, entry := 90 }] }

/-! Helper lemmas about the embedded operations. -/

/-- Every call of `identify_range` raises (either `ValueError` on an empty
slice or, on any nonempty slice, the `TypeError` from calling the constant
`standard_deviations`). -/
theorem identify_range_err (f : Frame) (start : Int) :
    ∃ e, Combined.identify_range f start = Except.error e := by
  unfold Combined.identify_range
  split
  · exact ⟨_, rfl⟩
  · exact ⟨_, rfl⟩

/-- The `if ranging:` block always aborts on the `identify_range` call:
`range_start` keeps the value it entered the block with, and no account
instruction is issued. -/
theorem rangingBody_eval (rs : Int) (acct : Account) (f : Frame) :
    (Combined.rangingBody rs acct f).range_start = rs ∧
    (Combined.rangingBody rs acct f).actions = [] ∧
    ∃ e, (Combined.rangingBody rs acct f).outcome = Except.error e := by
  obtain ⟨e, he⟩ := identify_range_err f rs
  unfold Combined.rangingBody
  rw [he]
  exact ⟨rfl, rfl, e, rfl⟩

/-- The combined strategy's `logic` never issues any account instruction:
every path that would reach an `enter_position` or `close_position` call
raises first. -/
theorem combined_actions_nil (rs : Int) (acct : Account) (f : Frame) :
    (Combined.logic rs acct f).actions = [] := by
  simp only [Combined.logic]
  repeat' split
  all_goals first | rfl | exact (rangingBody_eval _ _ _).2.1

/-- Inversion for `qdiv`: a successful division has a nonzero denominator and
returns the exact quotient. -/
theorem qdiv_ok {a b v : ℚ} (h : qdiv a b = Except.ok v) : b ≠ 0 ∧ v = a / b := by
  unfold qdiv at h
  split at h
  · cases h
  · exact ⟨by assumption, (Except.ok.injEq _ _).mp h |>.symm⟩

/-- If every success of `g` satisfies `P`, every element of a successful
`mapE g` run satisfies `P`. -/
theorem mapE_ok_mem {α β : Type} (g : α → Except String β) (P : β → Prop)
    (hg : ∀ a b, g a = Except.ok b → P b) :
    ∀ (l : List α) (ys : List β), mapE g l = Except.ok ys → ∀ y ∈ ys, P y := by
  intro l
  induction l with
  | nil =>
    intro ys h y hy
    simp only [mapE] at h
    cases h
    cases hy
  | cons a as ih =>
    intro ys h y hy
    simp only [mapE, bind, Except.bind] at h
    cases hga : g a with
    | error e => rw [hga] at h; cases h
    | ok b =>
      rw [hga] at h
      cases hmas : mapE g as with
      | error e => rw [hmas] at h; cases h
      | ok bs =>
        rw [hmas] at h
        cases h
        rcases List.mem_cons.mp hy with rfl | hmem
        · exact hg a y hga
        · exact ih bs hmas y hmem

/-- If `g` raises on some element of the list, the whole `mapE g` run raises. -/
theorem mapE_error_of_mem {α β : Type} (g : α → Except String β) {l : List α} {a : α}
    (ha : a ∈ l) (he : ∃ e, g a = Except.error e) :
    ∃ e, mapE g l = Except.error e := by
  induction l with
  | nil => cases ha
  | cons b bs ih =>
    cases hgb : g b with
    | error e => exact ⟨e, by simp only [mapE, bind, Except.bind, hgb]⟩
    | ok v =>
      rcases List.mem_cons.mp ha with rfl | hmem
      · obtain ⟨e, he2⟩ := he
        rw [he2] at hgb
        cases hgb
      · obtain ⟨e, he2⟩ := ih hmem
        exact ⟨e, by simp only [mapE, bind, Except.bind, hgb, he2]⟩

/-- Every DX value the loop produces is nonnegative: it is
`(|+DI − −DI| / |+DI + −DI|) * 100`, a quotient of absolute values. -/
theorem dxStep_nonneg (f : Frame) (t i : ℕ) (q : ℚ)
    (h : Combined.dxStep f t i = Except.ok q) : 0 ≤ q := by
  unfold Combined.dxStep at h
  cases h1 : qdiv (Combined.smoothedPlusDM f t i) (f.ATR (t - i)) with
  | error e => simp [bind, Except.bind, h1] at h
  | ok p =>
    cases h2 : qdiv (Combined.smoothedMinusDM f t i) (f.ATR (t - i)) with
    | error e => simp [bind, Except.bind, h1, h2] at h
    | ok m =>
      cases h3 : qdiv |p * 100 - m * 100| |p * 100 + m * 100| with
      | error e => simp [bind, Except.bind, h1, h2, h3] at h
      | ok q0 =>
        simp only [bind, Except.bind, h1, h2, h3, Except.ok.injEq] at h
        obtain ⟨-, rfl⟩ := qdiv_ok h3
        rw [← h]
        have hq : (0 : ℚ) ≤ |p * 100 - m * 100| / |p * 100 + m * 100| :=
          div_nonneg (abs_nonneg _) (abs_nonneg _)
        nlinarith [hq]

/-- Every instruction issued by one iteration of the Bollinger window loop is
an `enter_position` with notional equal to the snapshot `buying_power`, and it
is issued only when that buying power is positive. -/
theorem bollIter_enter (acct : Account) (f : Frame) (i : ℕ) (acts : List Action)
    (h : Boll.bollIter acct f i = Except.ok acts) :
    ∀ x ∈ acts,
      ∃ s p, x = Action.enter s acct.buying_power p ∧ 0 < acct.buying_power := by
  unfold Boll.bollIter at h
  cases h1 : qdiv Boll.buyvariable
      ((f.BOLD i (f.len - 1) - f.close (f.len - 1)) + Boll.buyvariable) with
  | error e => simp [bind, Except.bind, h1] at h
  | ok dl =>
    cases h2 : qdiv Boll.buyvariable
        ((f.close (f.len - 1) - f.BOLU i (f.len - 1)) + Boll.buyvariable) with
    | error e => simp [bind, Except.bind, h1, h2] at h
    | ok ds =>
      simp only [bind, Except.bind, h1, h2] at h
      split at h
      · cases h
        intro x hx
        rcases List.mem_append.mp hx with hm | hm
        · by_cases hc : f.close (f.len - 1) < f.BOLD i (f.len - 1) ∧ 0 < acct.buying_power
          · rw [if_pos hc] at hm
            rcases List.mem_singleton.mp hm with rfl
            exact ⟨Side.long, f.close (f.len - 1), rfl, hc.2⟩
          · rw [if_neg hc] at hm
            cases hm
        · by_cases hc : f.close (f.len - 1) > f.BOLU i (f.len - 1) ∧ 0 < acct.buying_power
          · rw [if_pos hc] at hm
            rcases List.mem_singleton.mp hm with rfl
            exact ⟨Side.short, f.close (f.len - 1), rfl, hc.2⟩
          · rw [if_neg hc] at hm
            cases hm
      · cases h
        intro x hx
        cases hx

/-- Every instruction issued by the whole Bollinger window loop is an
`enter_position` with the full snapshot buying power, positive. -/
theorem bollLoop_enter (acct : Account) (f : Frame) :
    ∀ (l : List ℕ), ∀ x ∈ (Boll.bollLoop acct f l).1,
      ∃ s p, x = Action.enter s acct.buying_power p ∧ 0 < acct.buying_power := by
  intro l
  induction l with
  | nil => intro x hx; cases hx
  | cons i rest ih =>
    intro x hx
    simp only [Boll.bollLoop] at hx
    cases hb : Boll.bollIter acct f i with
    | error e =>
      rw [hb] at hx
      cases hx
    | ok acts =>
      rw [hb] at hx
      rcases List.mem_append.mp hx with hm | hm
      · exact bollIter_enter acct f i acts hb x hm
      · exact ih x hm

/-- If some iteration of the Bollinger window loop raises, the loop raises. -/
theorem bollLoop_error_of_mem (acct : Account) (f : Frame) {l : List ℕ} {i : ℕ}
    (hi : i ∈ l) (he : ∃ e, Boll.bollIter acct f i = Except.error e) :
    ∃ e, (Boll.bollLoop acct f l).2 = Except.error e := by
  induction l with
  | nil => cases hi
  | cons a rest ih =>
    cases hb : Boll.bollIter acct f a with
    | error e => exact ⟨e, by simp only [Boll.bollLoop, hb]⟩
    | ok acts =>
      rcases List.mem_cons.mp hi with rfl | hmem
      · obtain ⟨e, he2⟩ := he
        rw [he2] at hb
        cases hb
      · obtain ⟨e, he2⟩ := ih hmem
        exact ⟨e, by simp only [Boll.bollLoop, hb, he2]⟩

/-- Decomposition of one Bollinger `logic` step: the instruction list is the
window loop's instructions followed by either nothing or the single close-all
of the snapshot positions at today's close. -/
theorem boll_logic_split (acct : Account) (f : Frame) :
    ∃ tl, (Boll.logic acct f).1 = (Boll.bollLoop acct f Boll.windows).1 ++ tl ∧
      (tl = [] ∨ tl = [Action.closeAll acct.positions (f.close (f.len - 1))]) := by
  simp only [Boll.logic]
  split
  · exact ⟨[], by simp, Or.inl rfl⟩
  · split
    · by_cases hp : acct.positions = []
      · exact ⟨[], by simp [hp], Or.inl rfl⟩
      · exact ⟨[Action.closeAll acct.positions (f.close (f.len - 1))],
          by simp [hp], Or.inr rfl⟩
    · exact ⟨[], by simp, Or.inl rfl⟩

/-- The instruction list of one Bollinger `logic` step decomposes as: first
only `enter_position` instructions, then at most one close-all instruction. -/
theorem boll_logic_shape (acct : Account) (f : Frame) :
    ∃ es tl, (Boll.logic acct f).1 = es ++ tl ∧
      (∀ x ∈ es, isEnter x = true) ∧
      (tl = [] ∨ ∃ ps p, tl = [Action.closeAll ps p]) := by
  have hall : ∀ x ∈ (Boll.bollLoop acct f Boll.windows).1, isEnter x = true := by
    intro x hx
    obtain ⟨s, p, rfl, -⟩ := bollLoop_enter acct f Boll.windows x hx
    rfl
  obtain ⟨tl, heq, htl⟩ := boll_logic_split acct f
  refine ⟨(Boll.bollLoop acct f Boll.windows).1, tl, heq, hall, ?_⟩
  rcases htl with rfl | rfl
  · exact Or.inl rfl
  · exact Or.inr ⟨_, _, rfl⟩

/-- Every instruction of a Bollinger `logic` step is either an entry with the
full positive snapshot buying power, or the close-all of the snapshot
positions at today's close. -/
theorem boll_logic_mem (acct : Account) (f : Frame) :
    ∀ x ∈ (Boll.logic acct f).1,
      (∃ s p, x = Action.enter s acct.buying_power p ∧ 0 < acct.buying_power) ∨
      x = Action.closeAll acct.positions (f.close (f.len - 1)) := by
  intro x hx
  obtain ⟨tl, heq, htl⟩ := boll_logic_split acct f
  rw [heq] at hx
  rcases List.mem_append.mp hx with hm | hm
  · exact Or.inl (bollLoop_enter acct f Boll.windows x hm)
  · rcases htl with rfl | rfl
    · cases hm
    · rcases List.mem_singleton.mp hm with rfl
      exact Or.inr rfl

set_option maxHeartbeats 1000000 in
/-- Evaluation of `adx` on the 41-bar trending history: it completes and
returns 900. -/
theorem adx_trendFrame : Combined.adx trendFrame = Except.ok 900 := by
  norm_num [Combined.adx, trendFrame, mapE, Combined.dxStep, qdiv,
    Combined.smoothedPlusDM, Combined.smoothedMinusDM, Combined.mean,
    List.range_succ, Combined.training_period, bind, Except.bind]

set_option maxHeartbeats 1000000 in
/-- Evaluation of `adx` on the 41-bar flat history: the very first DX loop
step divides by `|+DI + −DI| = 0` and the computation raises. -/
theorem adx_flatFrame :
    Combined.adx flatFrame =
      Except.error "ZeroDivisionError: float division by zero" := by
  norm_num [Combined.adx, flatFrame, mapE, Combined.dxStep, qdiv,
    Combined.smoothedPlusDM, Combined.smoothedMinusDM, Combined.mean,
    List.range_succ, Combined.training_period, bind, Except.bind]

set_option maxHeartbeats 1000000 in
/-- Evaluation of the Bollinger `logic` on `acct1`/`bollCex`: two long entry
instructions (windows 1 and 2), then the close-all instruction — the close
follows the entries. -/
theorem boll_eval :
    Boll.logic acct1 bollCex =
      ([Action.enter Side.long 1000 100, Action.enter Side.long 1000 100,
        Action.closeAll [{ side := Side.long, notional := 5, entry := 90 }] 100],
       Except.ok ()) := by
  norm_num [Boll.logic, Boll.bollLoop, Boll.bollIter, Boll.windows, Boll.bt,
    Boll.buyvariable, Boll.buyvariablescale, Boll.standard_deviations,
    Boll.stop_standard_deviation, qdiv, bind, Except.bind, acct1, bollCex]

/-- Folding `min` over any further elements can only lower the accumulator. -/
theorem foldl_min_le (e : List ℚ) : ∀ b : ℚ, e.foldl min b ≤ b := by
  induction e with
  | nil => intro b; exact le_refl b
  | cons c e ih => intro b; exact le_trans (ih (min b c)) (min_le_left b c)

/-- Folding `max` over any further elements can only raise the accumulator. -/
theorem le_foldl_max (e : List ℚ) : ∀ b : ℚ, b ≤ e.foldl max b := by
  induction e with
  | nil => intro b; exact le_refl b
  | cons c e ih => intro b; exact le_trans (le_max_left b c) (ih (max b c))

/-- The minimum over a widened nonempty list is no larger. -/
theorem listMin_append (l e : List ℚ) (hl : l ≠ []) :
    listMin (l ++ e) ≤ listMin l := by
  match l with
  | [] => exact absurd rfl hl
  | a :: as =>
    simp only [listMin, List.cons_append, List.foldl_append]
    exact foldl_min_le e _

/-- The maximum over a widened nonempty list is no smaller. -/
theorem listMax_append (l e : List ℚ) (hl : l ≠ []) :
    listMax l ≤ listMax (l ++ e) := by
  match l with
  | [] => exact absurd rfl hl
  | a :: as =>
    simp only [listMax, List.cons_append, List.foldl_append]
    exact le_foldl_max e _

/-- A natural-number slice start is taken as-is by `pyIndex`. -/
theorem pyIndex_nat (len s : ℕ) : pyIndex len (s : Int) = s := by
  unfold pyIndex
  rw [if_neg (not_lt.mpr (Int.natCast_nonneg s)), Int.toNat_natCast]

/-- `closeSlice` at a natural start index, unfolded. -/
theorem closeSlice_nat (f : Frame) (s : ℕ) :
    closeSlice f (s : Int) =
      (List.range (f.len - s)).map fun k => f.close (s + k) := by
  unfold closeSlice
  rw [pyIndex_nat]

/-- Appending bars to the history only appends further closes to the slice:
the old slice is an initial segment of the new one. -/
theorem closeSlice_extend (f g : Frame) (s : ℕ)
    (hlen : f.len ≤ g.len) (hclose : ∀ t, t < f.len → g.close t = f.close t)
    (hs : s ≤ f.len) :
    closeSlice g (s : Int) = closeSlice f (s : Int) ++
      ((List.range (g.len - f.len)).map fun k => g.close ((f.len - s) + s + k)) := by
  rw [closeSlice_nat, closeSlice_nat]
  have h1 : g.len - s = (f.len - s) + (g.len - f.len) := by omega
  rw [h1, List.range_add, List.map_append, List.map_map]
  congr 1
  · apply List.map_congr_left
    intro k hk
    have hklt : s + k < f.len := by
      have := List.mem_range.mp hk
      omega
    exact hclose _ hklt
  · apply List.map_congr_left
    intro k _
    show g.close (s + ((f.len - s) + k)) = g.close ((f.len - s) + s + k)
    congr 1
    omega

/-! The claims. -/

/-- Claim C1: for every history whose close slice from the start index has at
least 2 points, `identify_range` is claimed to return the six-tuple of range
bounds built from the sample standard deviation σ of the slice.  The code
never returns anything: `standard_deviations` is the constant `3.5`, and
calling it raises `TypeError` on every invocation — here evaluated on the
two-point slice `[1, 2]` (history `frameA`, start 0). -/
theorem claim1_identify_range_raises :
    closeSlice frameA 0 = [1, 2] ∧
      Combined.identify_range frameA 0 =
        Except.error "TypeError: float object is not callable" := by
  have hs : closeSlice frameA 0 = [1, 2] := by
    norm_num [closeSlice, pyIndex, frameA, List.range_succ]
  refine ⟨hs, ?_⟩
  unfold Combined.identify_range
  rw [if_neg (by rw [hs]; simp)]

/-- Claim C2: on a step whose previous state is RANGING (`range_start ≠ -1`),
with ADX available but not below the threshold and an open position, the
claim says exactly one close-all instruction (and no entry) is emitted and
`range_start` resets to -1.  On the trending 41-bar frame with
`range_start = 0` and one open position, the code instead raises `TypeError`
at the 1-argument call `exit_positions(account)`: zero instructions reach the
account and `range_start` keeps its old value 0. -/
theorem claim2_regime_exit_emits_nothing :
    acctPos.positions ≠ [] ∧
      Combined.adx trendFrame = Except.ok 900 ∧
      ¬ (900 : ℚ) < Combined.adx_ranging_threshold ∧
      Combined.logic 0 acctPos trendFrame =
        { range_start := 0, actions := [],
          outcome := Except.error
            "TypeError: exit_positions missing 2 required positional arguments" } := by
  refine ⟨by simp [acctPos], adx_trendFrame,
    by norm_num [Combined.adx_ranging_threshold], ?_⟩
  simp only [Combined.logic, adx_trendFrame]
  norm_num [trendFrame, Combined.training_period, Combined.adx_ranging_threshold]

/-- Claim C3: the regime-state invariant says `range_start` returns to none
exactly on a RANGING→NOT_RANGING transition (and is non-none iff the step
classified the market as RANGING).  On such a transition the code raises
*before* the reset: entering the step with `range_start = 5` on a frame whose
ADX is 900 (not ranging), the step aborts with the `exit_positions`
`TypeError` and `range_start` remains 5 even though the step classified the
market as NOT_RANGING. -/
theorem claim3_range_start_not_reset :
    Combined.adx trendFrame = Except.ok 900 ∧
      ¬ (900 : ℚ) < Combined.adx_ranging_threshold ∧
      (Combined.logic 5 acctFlat trendFrame).range_start = 5 ∧
      (Combined.logic 5 acctFlat trendFrame).outcome =
        Except.error "TypeError: exit_positions missing 2 required positional arguments" := by
  refine ⟨adx_trendFrame, by norm_num [Combined.adx_ranging_threshold], ?_, ?_⟩ <;>
    · simp only [Combined.logic, adx_trendFrame]
      norm_num [trendFrame, Combined.training_period, Combined.adx_ranging_threshold]

/-- Claim C4 counterexample: a 41-bar history on which every DX-loop
denominator is nonzero (the computation completes), yet `adx` returns 900,
far above the claimed upper bound 100 — the raw signed DMs make
`|+DI + −DI|` smaller than `|+DI − −DI|`. -/
theorem claim4_adx_can_exceed_100 :
    Combined.adx trendFrame = Except.ok 900 ∧ ¬ ((900 : ℚ) ≤ 100) :=
  ⟨adx_trendFrame, by norm_num⟩

/-- Claim C4 amended: every value `adx` completes with is nonnegative (each
DX is a quotient of absolute values times 100 and ADX is their average), but
the claimed upper bound of 100 does not hold. -/
theorem claim4_adx_nonneg (f : Frame) (v : ℚ)
    (h : Combined.adx f = Except.ok v) : 0 ≤ v := by
  unfold Combined.adx at h
  split at h
  · injection h with h2
    rw [← h2]
    norm_num
  · cases hm : mapE (fun i => Combined.dxStep f (f.len - 1) i)
        (List.range Combined.training_period) with
    | error e => simp [bind, Except.bind, hm] at h
    | ok dxs =>
      simp only [bind, Except.bind, hm, Except.ok.injEq] at h
      subst h
      have hnn : ∀ y ∈ dxs, 0 ≤ y :=
        mapE_ok_mem _ _ (fun i q hq => dxStep_nonneg f (f.len - 1) i q hq) _ _ hm
      exact div_nonneg (List.sum_nonneg hnn) (by norm_num)

/-- Witness for the amended C4 at the trending frame: `adx` completes with
900 and 0 ≤ 900. -/
theorem claim4_adx_nonneg_witness :
    Combined.adx trendFrame = Except.ok 900 ∧ (0 : ℚ) ≤ 900 :=
  ⟨adx_trendFrame, claim4_adx_nonneg trendFrame 900 adx_trendFrame⟩

/-- Claim C5: with fewer than `2*training_period + 1` bars, `adx` returns the
fully-trending sentinel 100 — never below the ranging threshold 25, so the
step is never classified as ranging — and the combined `logic` step issues no
account instruction, leaves `range_start` unchanged and returns normally. -/
theorem claim5_short_history (rs : Int) (acct : Account) (f : Frame)
    (h : f.len < 2 * Combined.training_period + 1) :
    Combined.adx f = Except.ok 100 ∧
      ¬ (100 : ℚ) < Combined.adx_ranging_threshold ∧
      Combined.logic rs acct f =
        { range_start := rs, actions := [], outcome := Except.ok () } := by
  refine ⟨?_, by norm_num [Combined.adx_ranging_threshold], ?_⟩
  · unfold Combined.adx
    rw [if_pos h]
  · simp only [Combined.logic]
    rw [if_pos (show f.len - 1 + 1 < 2 * Combined.training_period + 1 by
      have ht : Combined.training_period = 20 := rfl
      omega)]

/-- Witness for C5 on the 5-bar history. -/
theorem claim5_short_history_witness :
    smallFrame.len < 2 * Combined.training_period + 1 ∧
      Combined.adx smallFrame = Except.ok 100 ∧
      ¬ (100 : ℚ) < Combined.adx_ranging_threshold ∧
      Combined.logic 7 acctPos smallFrame =
        { range_start := 7, actions := [], outcome := Except.ok () } := by
  have h : smallFrame.len < 2 * Combined.training_period + 1 := by
    norm_num [smallFrame, Combined.training_period]
  obtain ⟨h1, h2, h3⟩ := claim5_short_history 7 acctPos smallFrame h
  exact ⟨h, h1, h2, h3⟩

/-- Claim C6 counterexample: the claim says the DX division is guarded,
defining DX = 0 when `+DI + −DI = 0`, so `adx` never fails with a division
error on that account.  On the flat 41-bar history the very first DX loop
step has `+DI + −DI = 0` and `adx` raises `ZeroDivisionError`: there is no
guard. -/
theorem claim6_unguarded_division :
    Combined.adx flatFrame =
      Except.error "ZeroDivisionError: float division by zero" :=
  adx_flatFrame

/-- Claim C6 amended: at every DX-loop step whose denominator `+DI + −DI` is
zero (and whose ATR is nonzero, so the loop step reaches that division), the
`adx` computation raises a division error — DX is not defined to 0 there. -/
theorem claim6_zero_denominator_raises (f : Frame) (i : ℕ)
    (hlen : ¬ f.len < 2 * Combined.training_period + 1)
    (hi : i < Combined.training_period)
    (hATR : f.ATR (f.len - 1 - i) ≠ 0)
    (hden : Combined.smoothedPlusDM f (f.len - 1) i / f.ATR (f.len - 1 - i) * 100 +
        Combined.smoothedMinusDM f (f.len - 1) i / f.ATR (f.len - 1 - i) * 100 = 0) :
    ∃ e, Combined.adx f = Except.error e := by
  have hq1 : qdiv (Combined.smoothedPlusDM f (f.len - 1) i) (f.ATR (f.len - 1 - i)) =
      Except.ok (Combined.smoothedPlusDM f (f.len - 1) i / f.ATR (f.len - 1 - i)) := by
    unfold qdiv
    rw [if_neg hATR]
  have hq2 : qdiv (Combined.smoothedMinusDM f (f.len - 1) i) (f.ATR (f.len - 1 - i)) =
      Except.ok (Combined.smoothedMinusDM f (f.len - 1) i / f.ATR (f.len - 1 - i)) := by
    unfold qdiv
    rw [if_neg hATR]
  have habs : |Combined.smoothedPlusDM f (f.len - 1) i / f.ATR (f.len - 1 - i) * 100 +
      Combined.smoothedMinusDM f (f.len - 1) i / f.ATR (f.len - 1 - i) * 100| = 0 := by
    rw [hden]
    exact abs_zero
  have hstep : Combined.dxStep f (f.len - 1) i =
      Except.error "ZeroDivisionError: float division by zero" := by
    unfold Combined.dxStep
    simp only [bind, Except.bind, hq1, hq2]
    unfold qdiv
    rw [if_pos habs]
  obtain ⟨e2, hmap⟩ := mapE_error_of_mem (fun j => Combined.dxStep f (f.len - 1) j)
      (List.mem_range.mpr hi) ⟨_, hstep⟩
  refine ⟨e2, ?_⟩
  unfold Combined.adx
  rw [if_neg hlen]
  simp only [bind, Except.bind, hmap]

/-- Witness for the amended C6 at the flat frame and loop step 0. -/
theorem claim6_zero_denominator_raises_witness :
    ¬ flatFrame.len < 2 * Combined.training_period + 1 ∧
      0 < Combined.training_period ∧
      flatFrame.ATR (flatFrame.len - 1 - 0) ≠ 0 ∧
      (Combined.smoothedPlusDM flatFrame (flatFrame.len - 1) 0 /
          flatFrame.ATR (flatFrame.len - 1 - 0) * 100 +
        Combined.smoothedMinusDM flatFrame (flatFrame.len - 1) 0 /
          flatFrame.ATR (flatFrame.len - 1 - 0) * 100 = 0) ∧
      ∃ e, Combined.adx flatFrame = Except.error e := by
  have h1 : ¬ flatFrame.len < 2 * Combined.training_period + 1 := by
    norm_num [flatFrame, Combined.training_period]
  have h2 : 0 < Combined.training_period := by
    norm_num [Combined.training_period]
  have h3 : flatFrame.ATR (flatFrame.len - 1 - 0) ≠ 0 := by
    norm_num [flatFrame]
  have h4 : Combined.smoothedPlusDM flatFrame (flatFrame.len - 1) 0 /
        flatFrame.ATR (flatFrame.len - 1 - 0) * 100 +
      Combined.smoothedMinusDM flatFrame (flatFrame.len - 1) 0 /
        flatFrame.ATR (flatFrame.len - 1 - 0) * 100 = 0 := by
    norm_num [Combined.smoothedPlusDM, Combined.smoothedMinusDM, Combined.mean,
      flatFrame, Combined.training_period, List.range_succ]
  exact ⟨h1, h2, h3, h4, claim6_zero_denominator_raises flatFrame 0 h1 h2 h3 h4⟩

/-- Claim C7 counterexample: when the window-0 sizing denominator
`(BOLD0 − close) + buyvariable` is zero, the claim says the computed notional
is exactly 0 and no error is raised.  The Bollinger `logic` step instead
raises `ZeroDivisionError` (and issues nothing). -/
theorem claim7_sizing_division_raises :
    (bollDiv.BOLD 0 (bollDiv.len - 1) - bollDiv.close (bollDiv.len - 1)) +
        Boll.buyvariable = 0 ∧
      Boll.logic acctFlat bollDiv =
        ([], Except.error "ZeroDivisionError: float division by zero") := by
  constructor
  · norm_num [bollDiv, Boll.buyvariable, Boll.buyvariablescale,
      Boll.standard_deviations]
  · norm_num [Boll.logic, Boll.bollLoop, Boll.bollIter, Boll.windows, Boll.bt,
      qdiv, bind, Except.bind, Boll.buyvariable, Boll.buyvariablescale,
      Boll.standard_deviations, acctFlat, bollDiv]

/-- Claim C7 amended: a zero sizing denominator at any window slot makes the
Bollinger `logic` step raise a division error (which propagates to the
caller); the notional is not clamped to 0. -/
theorem claim7_zero_denominator_sizing_raises (acct : Account) (f : Frame) (i : ℕ)
    (hi : i ∈ Boll.windows)
    (hden : (f.BOLD i (f.len - 1) - f.close (f.len - 1)) + Boll.buyvariable = 0 ∨
            (f.close (f.len - 1) - f.BOLU i (f.len - 1)) + Boll.buyvariable = 0) :
    ∃ e, (Boll.logic acct f).2 = Except.error e := by
  have hii : Boll.bollIter acct f i =
      Except.error "ZeroDivisionError: float division by zero" := by
    unfold Boll.bollIter
    by_cases h1 : (f.BOLD i (f.len - 1) - f.close (f.len - 1)) + Boll.buyvariable = 0
    · have hq1 : qdiv Boll.buyvariable
          ((f.BOLD i (f.len - 1) - f.close (f.len - 1)) + Boll.buyvariable) =
          Except.error "ZeroDivisionError: float division by zero" := by
        unfold qdiv
        rw [if_pos h1]
      simp only [bind, Except.bind, hq1]
    · have h2 : (f.close (f.len - 1) - f.BOLU i (f.len - 1)) + Boll.buyvariable = 0 :=
        hden.resolve_left h1
      have hq1 : qdiv Boll.buyvariable
          ((f.BOLD i (f.len - 1) - f.close (f.len - 1)) + Boll.buyvariable) =
          Except.ok (Boll.buyvariable /
            ((f.BOLD i (f.len - 1) - f.close (f.len - 1)) + Boll.buyvariable)) := by
        unfold qdiv
        rw [if_neg h1]
      have hq2 : qdiv Boll.buyvariable
          ((f.close (f.len - 1) - f.BOLU i (f.len - 1)) + Boll.buyvariable) =
          Except.error "ZeroDivisionError: float division by zero" := by
        unfold qdiv
        rw [if_pos h2]
      simp only [bind, Except.bind, hq1, hq2]
  obtain ⟨e, he⟩ := bollLoop_error_of_mem acct f hi ⟨_, hii⟩
  refine ⟨e, ?_⟩
  simp only [Boll.logic, he]

/-- Witness for the amended C7: window 0 of `bollDiv` has a zero long-side
sizing denominator and the step errors. -/
theorem claim7_zero_denominator_sizing_raises_witness :
    (0 : ℕ) ∈ Boll.windows ∧
      ((bollDiv.BOLD 0 (bollDiv.len - 1) - bollDiv.close (bollDiv.len - 1)) +
        Boll.buyvariable = 0) ∧
      ∃ e, (Boll.logic acctFlat bollDiv).2 = Except.error e := by
  have h0 : (0 : ℕ) ∈ Boll.windows := by simp [Boll.windows]
  have hd : (bollDiv.BOLD 0 (bollDiv.len - 1) - bollDiv.close (bollDiv.len - 1)) +
      Boll.buyvariable = 0 := by
    norm_num [bollDiv, Boll.buyvariable, Boll.buyvariablescale,
      Boll.standard_deviations]
  exact ⟨h0, hd,
    claim7_zero_denominator_sizing_raises acctFlat bollDiv 0 h0 (Or.inl hd)⟩

/-- Claim C8 counterexample: on `acct1`/`bollCex` the Bollinger step issues
TWO entry instructions — more than the claimed "at most one" — and the
close-all instruction comes last, i.e. *after* the entries, refuting the
claimed close-before-enter order. -/
theorem claim8_entry_before_close :
    Boll.logic acct1 bollCex =
      ([Action.enter Side.long 1000 100, Action.enter Side.long 1000 100,
        Action.closeAll [{ side := Side.long, notional := 5, entry := 90 }] 100],
       Except.ok ()) ∧
      (Boll.logic acct1 bollCex).1.countP isEnter = 2 ∧
      (Boll.logic acct1 bollCex).1.getLast? =
        some (Action.closeAll [{ side := Side.long, notional := 5, entry := 90 }] 100) := by
  refine ⟨boll_eval, ?_, ?_⟩
  · rw [boll_eval]
    rfl
  · rw [boll_eval]
    rfl

/-- Claim C8 amended: per step, the combined variant issues no account
instruction at all (every path that would raises first), and the Bollinger
variant issues at most one close-all instruction, which *follows* all entry
instructions of the step; more than one entry can occur in one step. -/
theorem claim8_step_action_shape (acct : Account) (f : Frame) (rs : Int) :
    (∃ es tl, (Boll.logic acct f).1 = es ++ tl ∧
        (∀ x ∈ es, isEnter x = true) ∧
        (tl = [] ∨ ∃ ps p, tl = [Action.closeAll ps p])) ∧
      (Combined.logic rs acct f).actions = [] :=
  ⟨boll_logic_shape acct f, combined_actions_nil rs acct f⟩

/-- Claim C9 counterexample: widening the close slice can RAISE the lower
bound.  The slice `[0, 1, 2]` has sample variance 1 (σ = 1), so
`lower = min − bound_buffer·σ = −1`; appending six closes at 1 gives sample
variance 1/4 (σ = 1/2) with the same min 0, so `lower = −1/2 > −1`. -/
theorem claim9_lower_bound_not_monotone :
    frameC9e.close = frameC9.close ∧ frameC9.len = 3 ∧ frameC9e.len = 9 ∧
      closeSlice frameC9 0 = [0, 1, 2] ∧
      closeSlice frameC9e 0 = [0, 1, 2, 1, 1, 1, 1, 1, 1] ∧
      (1 : ℚ) ^ 2 = sampleVar (closeSlice frameC9 0) ∧
      ((1 : ℚ) / 2) ^ 2 = sampleVar (closeSlice frameC9e 0) ∧
      (0 : ℚ) ≤ 1 ∧ (0 : ℚ) ≤ 1 / 2 ∧
      listMin (closeSlice frameC9 0) - Combined.bound_buffer * 1 <
        listMin (closeSlice frameC9e 0) - Combined.bound_buffer * (1 / 2) := by
  have hs1 : closeSlice frameC9 0 = [0, 1, 2] := by
    norm_num [closeSlice, pyIndex, frameC9, c9close, List.range_succ]
  have hs2 : closeSlice frameC9e 0 = [0, 1, 2, 1, 1, 1, 1, 1, 1] := by
    norm_num [closeSlice, pyIndex, frameC9e, c9close, List.range_succ]
  refine ⟨rfl, rfl, rfl, hs1, hs2, ?_, ?_, by norm_num, by norm_num, ?_⟩
  · rw [hs1]
    norm_num [sampleVar, Combined.mean]
  · rw [hs2]
    norm_num [sampleVar, Combined.mean]
  · rw [hs1, hs2]
    norm_num [listMin, Combined.bound_buffer]

/-- Claim C9 amended: widening the observed slice is monotone for its min and
max — `min(S)` can only move down or stay, `max(S)` up or stay — but not for
the buffered bounds `lower`/`upper` themselves, because σ can shrink as bars
arrive (see the counterexample). -/
theorem claim9_min_max_monotone (f g : Frame) (s : ℕ)
    (hlen : f.len ≤ g.len) (hclose : ∀ t, t < f.len → g.close t = f.close t)
    (hs : s < f.len) :
    listMin (closeSlice g (s : Int)) ≤ listMin (closeSlice f (s : Int)) ∧
      listMax (closeSlice f (s : Int)) ≤ listMax (closeSlice g (s : Int)) := by
  have hext := closeSlice_extend f g s hlen hclose (le_of_lt hs)
  have hne : closeSlice f (s : Int) ≠ [] := by
    rw [closeSlice_nat]
    intro hcontra
    have hlen0 : f.len - s = 0 := by
      have := congrArg List.length hcontra
      simpa using this
    omega
  rw [hext]
  exact ⟨listMin_append _ _ hne, listMax_append _ _ hne⟩

/-- Witness for the amended C9 on the concrete pair of frames. -/
theorem claim9_min_max_monotone_witness :
    frameC9.len ≤ frameC9e.len ∧ 0 < frameC9.len ∧
      listMin (closeSlice frameC9e (0 : Int)) ≤ listMin (closeSlice frameC9 (0 : Int)) ∧
      listMax (closeSlice frameC9 (0 : Int)) ≤ listMax (closeSlice frameC9e (0 : Int)) := by
  have h1 : frameC9.len ≤ frameC9e.len := by norm_num [frameC9, frameC9e]
  have h2 : 0 < frameC9.len := by norm_num [frameC9]
  have h3 := claim9_min_max_monotone frameC9 frameC9e 0 h1 (fun t _ => rfl) h2
  exact ⟨h1, h2, h3.1, h3.2⟩

/-- Claim C10: the Bollinger strategy calls `enter_position` only with
notional equal to the account's `buying_power` and only when that buying
power is positive, so the account's "notional ≤ 0" failure condition is
unreachable from this strategy. -/
theorem claim10_enter_only_with_positive_power (acct : Account) (f : Frame)
    (s : Side) (n p : ℚ)
    (h : Action.enter s n p ∈ (Boll.logic acct f).1) :
    n = acct.buying_power ∧ 0 < n := by
  rcases boll_logic_mem acct f _ h with ⟨s2, p2, heq, hpos⟩ | heq
  · simp only [Action.enter.injEq] at heq
    obtain ⟨-, h2, -⟩ := heq
    refine ⟨h2, ?_⟩
    rw [h2]
    exact hpos
  · exact absurd heq (by simp)

/-- Witness for C10: the first entry of the `acct1`/`bollCex` step. -/
theorem claim10_enter_only_with_positive_power_witness :
    Action.enter Side.long 1000 100 ∈ (Boll.logic acct1 bollCex).1 ∧
      ((1000 : ℚ) = acct1.buying_power ∧ 0 < (1000 : ℚ)) := by
  have hmem : Action.enter Side.long 1000 100 ∈ (Boll.logic acct1 bollCex).1 := by
    rw [boll_eval]
    simp
  exact ⟨hmem,
    claim10_enter_only_with_positive_power acct1 bollCex Side.long 1000 100 hmem⟩

end RangeTrading
